import Mathlib

/-!
Verification of the `lrl-rts-utils` repository: a shallow embedding of the
cache-aware window resolver, fetch orchestrator, record stream decoder and
ingestion loop, with theorems checking the natural-language specification.

Sources embedded:
  * `src/rtsutils/cavi/jython/ui/cumulus.py` (`Cumulus.execute`,
    `Cumulus.adjust_dates_by_cache`, `Cumulus.remove_observed_products`,
    `Cumulus.get_metadata`)
  * `src/rtsutils/go/__init__.py` (`get`, `__parse_go_output`)
  * `src/rtsutils/cavi/jython/jutil.py` (`get_precip_record_datetimes`)
  * `src/watershed_scripts/access_water_extract.py` (`put_to_dss`, the
    module-level byte-stream ingestion loop)

Machine integers are modelled as `Nat`/`Int`; Python strings as `List Char`;
fallible Python code returns `Except PyErr`.  Calls into external Java/HEC
libraries and the DSS store are modelled as explicit oracle parameters.
-/

namespace RtsUtils

/-- Python exception kinds that the embedded code can raise. -/
inductive PyErr where
  | keyError
  | attributeError
  | typeError
  | indexError
  | valueError
  | overflowError
  | exception (msg : List Char)
deriving DecidableEq, Repr

/-! ## Basic Python string helpers (modelled on `List Char`) -/

/-- The object-open structural delimiter (left curly brace). -/
def obChar : Char := Char.ofNat 123

/-- The object-close structural delimiter (right curly brace). -/
def cbChar : Char := Char.ofNat 125

/-- Double-quote character. -/
def qChar : Char := '"'

/-- Python whitespace characters recognised by `str.strip()` and the JSON
lexer (space, tab, newline, carriage return, vertical tab, form feed). -/
def isPySpace (c : Char) : Bool :=
  c = ' ' || c = '\t' || c = '\n' || c = '\r' || c = Char.ofNat 11 || c = Char.ofNat 12

/-- Model of Python `str.strip()`: drop leading and trailing whitespace. -/
def pyStrip (s : List Char) : List Char :=
  ((s.dropWhile isPySpace).reverse.dropWhile isPySpace).reverse

/-- `pat` occurs as a contiguous substring of `s` (Python's `pat in s`). -/
def containsSub (pat s : List Char) : Bool :=
  s.tails.any (fun t => pat.isPrefixOf t)

/-- Model of Python `str.split(sep)` for a single-character separator:
split at every occurrence, keeping empty pieces. -/
def splitChar (sep : Char) : List Char → List (List Char)
  | [] => [[]]
  | c :: rest =>
    if c = sep then [] :: splitChar sep rest
    else
      match splitChar sep rest with
      | [] => [[c]]
      | p :: ps => (c :: p) :: ps

/-- Model of Python `str.split("::")`: split at every occurrence of the
two-character separator `::`, scanning left to right. -/
def splitDC : List Char → List (List Char)
  | [] => [[]]
  | ':' :: ':' :: rest => [] :: splitDC rest
  | c :: rest =>
    match splitDC rest with
    | [] => [[c]]
    | p :: ps => (c :: p) :: ps

/-- Python `s.split("::")[-1]`: the text after the last `::` separator
(the whole string when no separator occurs). -/
def lastSplitDC (s : List Char) : List Char := (splitDC s).getLastD []

/-- Model of Python `str.upper()` (ASCII uppercasing). -/
def pyUpper (s : List Char) : List Char := s.map Char.toUpper

/-- Digit characters `0`..`9` as their numeric value. -/
def digitVal (c : Char) : Nat := c.toNat - 48

/-- Numeric value of a digit string (Python `int(...)` on a digit run). -/
def digitsToNat (ds : List Char) : Nat :=
  ds.foldl (fun a c => a * 10 + digitVal c) 0

/-- The decimal digit character for a value `0`..`9`. -/
def digitChar : Nat → Char
  | 0 => '0' | 1 => '1' | 2 => '2' | 3 => '3' | 4 => '4'
  | 5 => '5' | 6 => '6' | 7 => '7' | 8 => '8' | _ => '9'

/-! ## JSON values and a model of Python `json.loads`

`json.loads` is an external (standard-library) collaborator of the sources;
it is modelled here by an executable recursive-descent parser covering the
JSON subset exchanged with the provider (objects, arrays, strings with the
common escapes, integer/decimal numbers, booleans, null). -/

/-- JSON values as decoded by `json.loads`.  Numbers are kept as an integer
part plus raw fraction digits; the claims never compute with numeric
values, only carry them. -/
inductive JVal where
  | jnull
  | jbool (b : Bool)
  | jnum (ip : Int) (frac : List Char)
  | jstr (s : List Char)
  | jarr (xs : List JVal)
  | jobj (fields : List (List Char × JVal))

/-- Python truthiness of a decoded JSON value (`bool(v)`). -/
def jvTruthy : JVal → Bool
  | .jnull => false
  | .jbool b => b
  | .jnum ip frac => ip ≠ 0 || frac.any (fun c => c ≠ '0')
  | .jstr s => s ≠ []
  | .jarr xs => !xs.isEmpty
  | .jobj fs => !fs.isEmpty

/-- Lookup of a key in a decoded JSON object;  Python dicts built by
`json.loads` keep the last occurrence of a duplicated key. -/
def objGet (key : List Char) (fields : List (List Char × JVal)) : Option JVal :=
  List.lookup key fields.reverse

/-- Translate a JSON escape character to the character it denotes. -/
def unescape (c : Char) : Option Char :=
  if c = qChar then some qChar
  else if c = '\\' then some '\\'
  else if c = '/' then some '/'
  else if c = 'n' then some '\n'
  else if c = 't' then some '\t'
  else if c = 'r' then some '\r'
  else if c = 'b' then some (Char.ofNat 8)
  else if c = 'f' then some (Char.ofNat 12)
  else none

/-- Parse the body of a JSON string literal (after the opening quote),
returning the decoded characters and the input following the closing
quote. -/
def parseStringBody : List Char → Option (List Char × List Char)
  | [] => none
  | c :: rest =>
    if c = qChar then some ([], rest)
    else if c = '\\' then
      match rest with
      | [] => none
      | e :: rest2 =>
        match unescape e with
        | none => none
        | some d =>
          match parseStringBody rest2 with
          | none => none
          | some (s, r) => some (d :: s, r)
    else
      match parseStringBody rest with
      | none => none
      | some (s, r) => some (c :: s, r)

/-- Parse a JSON number: optional minus sign, an integer digit run, and an
optional fraction. -/
def parseNumber (s : List Char) : Option (JVal × List Char) :=
  let (neg, s1) :=
    match s with
    | '-' :: r => (true, r)
    | _ => (false, s)
  let ds := s1.takeWhile Char.isDigit
  let r1 := s1.dropWhile Char.isDigit
  if ds = [] then none
  else
    let ip : Int := if neg then -(digitsToNat ds : Int) else (digitsToNat ds : Int)
    match r1 with
    | '.' :: r2 =>
      let fs := r2.takeWhile Char.isDigit
      let r3 := r2.dropWhile Char.isDigit
      if fs = [] then none else some (.jnum ip fs, r3)
    | _ => some (.jnum ip [], r1)

/-- Drop leading JSON whitespace. -/
def skipWS (s : List Char) : List Char := s.dropWhile isPySpace

mutual

/-- Fuelled recursive-descent parser for one JSON value; returns the value
and the unconsumed remainder. -/
def parseVal : Nat → List Char → Option (JVal × List Char)
  | 0, _ => none
  | Nat.succ fuel, s =>
    match skipWS s with
    | [] => none
    | c :: rest =>
      if c = obChar then
        match skipWS rest with
        | d :: rest2 =>
          if d = cbChar then some (.jobj [], rest2)
          else parseObjFields fuel (d :: rest2)
        | [] => none
      else if c = '[' then
        match skipWS rest with
        | d :: rest2 =>
          if d = ']' then some (.jarr [], rest2)
          else parseArrElems fuel (d :: rest2)
        | [] => none
      else if c = qChar then
        match parseStringBody rest with
        | none => none
        | some (str, r) => some (.jstr str, r)
      else if ['t', 'r', 'u', 'e'].isPrefixOf (c :: rest) then
        some (.jbool true, (c :: rest).drop 4)
      else if ['f', 'a', 'l', 's', 'e'].isPrefixOf (c :: rest) then
        some (.jbool false, (c :: rest).drop 5)
      else if ['n', 'u', 'l', 'l'].isPrefixOf (c :: rest) then
        some (.jnull, (c :: rest).drop 4)
      else
        parseNumber (c :: rest)

/-- Parse the members of a non-empty JSON object, positioned at the first
key; consumes the closing delimiter. -/
def parseObjFields : Nat → List Char → Option (JVal × List Char)
  | 0, _ => none
  | Nat.succ fuel, s =>
    match skipWS s with
    | c :: rest =>
      if c = qChar then
        match parseStringBody rest with
        | none => none
        | some (key, r1) =>
          match skipWS r1 with
          | ':' :: r2 =>
            match parseVal fuel r2 with
            | none => none
            | some (v, r3) =>
              match skipWS r3 with
              | ',' :: r4 =>
                match parseObjFields fuel r4 with
                | some (.jobj fs, r5) => some (.jobj ((key, v) :: fs), r5)
                | _ => none
              | d :: r4 =>
                if d = cbChar then some (.jobj [(key, v)], r4) else none
              | [] => none
          | _ => none
      else none
    | [] => none

/-- Parse the elements of a non-empty JSON array, positioned at the first
element; consumes the closing bracket. -/
def parseArrElems : Nat → List Char → Option (JVal × List Char)
  | 0, _ => none
  | Nat.succ fuel, s =>
    match parseVal fuel s with
    | none => none
    | some (v, r1) =>
      match skipWS r1 with
      | ',' :: r2 =>
        match parseArrElems fuel r2 with
        | some (.jarr vs, r3) => some (.jarr (v :: vs), r3)
        | _ => none
      | ']' :: r2 => some (.jarr [v], r2)
      | _ => none

end

/-- Model of `json.loads`: parse exactly one JSON value, allowing trailing
whitespace only. -/
def json_loads (s : List Char) : Option JVal :=
  match parseVal (s.length + 1) s with
  | some (v, rest) => if skipWS rest = [] then some v else none
  | none => none

/-! ## Record Stream Decoder
(`src/watershed_scripts/access_water_extract.py`, module-level loop)

The source reads the worker's stdout one byte at a time:
```
for b in iter(partial(sp.stdout.read, 1), b''):
    byte_array.append(b)
    if b == '}':
        obj = json.loads(str(byte_array))
        byte_array = bytearray()
        ...
```
Each byte is appended to an accumulation buffer and, whenever the byte is
an object-close delimiter, the whole buffer is decoded with `json.loads`
and the buffer cleared.  A `json.loads` failure raises `ValueError`, which
terminates the whole loop. -/

/-- One run of the stream decoder starting from buffer `buf`: the decoded
records in order, or the Python error that escapes. -/
def decodeAux (buf : List Char) : List Char → Except PyErr (List JVal)
  | [] => .ok []
  | c :: rest =>
    let buf2 := buf ++ [c]
    if c = cbChar then
      match json_loads buf2 with
      | some v =>
        match decodeAux [] rest with
        | .ok vs => .ok (v :: vs)
        | .error e => .error e
      | none => .error .valueError
    else decodeAux buf2 rest

/-- The record stream decoder: consume the byte stream with an initially
empty buffer. -/
def decode (input : List Char) : Except PyErr (List JVal) := decodeAux [] input

/-! ## Datetimes
Model of the Python `datetime` values the sources compare and adjust.
Only the fields used by the embedded code are kept (the sources work at
minute precision: ISO strings have `:00` seconds and DSS date parts have
no seconds). -/

/-- A Python `datetime` at minute precision. -/
@[ext]
structure PyDateTime where
  year : Nat
  month : Nat
  day : Nat
  hour : Nat
  minute : Nat
deriving DecidableEq, Repr

/-- Gregorian leap-year rule (`calendar.isleap`). -/
def isLeap (y : Nat) : Bool := y % 4 = 0 && (y % 100 ≠ 0 || y % 400 = 0)

/-- Days in a month of a given year (month `1`..`12`). -/
def daysInMonth (y m : Nat) : Nat :=
  if m = 2 then (if isLeap y then 29 else 28)
  else if m = 4 || m = 6 || m = 9 || m = 11 then 30
  else 31

/-- Days in the months before month `m` of year `y`. -/
def daysBeforeMonth (y m : Nat) : Nat :=
  (List.range (m - 1)).foldl (fun acc i => acc + daysInMonth y (i + 1)) 0

/-- Leap years among years `1`..`y`. -/
def leapsThrough (y : Nat) : Nat := y / 4 - y / 100 + y / 400

/-- Days in the years before year `y` (proleptic Gregorian, year 1 start). -/
def daysBeforeYear (y : Nat) : Nat := 365 * (y - 1) + leapsThrough (y - 1)

/-- Absolute minute number of a datetime; Python `datetime` comparison on
valid datetimes agrees with comparison of these numbers. -/
def toMinutes (dt : PyDateTime) : Int :=
  ((daysBeforeYear dt.year + daysBeforeMonth dt.year dt.month + (dt.day - 1)) * 1440
    + dt.hour * 60 + dt.minute : Nat)

/-- `datetime` validity as enforced by the `datetime` constructor, plus the
bounds guaranteed by `strptime` field patterns. -/
def validDate (dt : PyDateTime) : Prop :=
  1 ≤ dt.year ∧ dt.year ≤ 9999 ∧ 1 ≤ dt.month ∧ dt.month ≤ 12 ∧
  1 ≤ dt.day ∧ dt.day ≤ daysInMonth dt.year dt.month ∧
  dt.hour ≤ 23 ∧ dt.minute ≤ 59

instance (dt : PyDateTime) : Decidable (validDate dt) := by
  unfold validDate; infer_instance

/-- Model of `temp_dt + timedelta(days=1)` on a valid datetime. -/
def addOneDay (dt : PyDateTime) : PyDateTime :=
  if dt.day < daysInMonth dt.year dt.month then { dt with day := dt.day + 1 }
  else if dt.month < 12 then { dt with month := dt.month + 1, day := 1 }
  else { dt with year := dt.year + 1, month := 1, day := 1 }

/-! ### `strptime`/`strftime` for the DSS date formats

`datetime.strptime(s, "%d%b%Y:%H%M")`, `datetime.strptime(s, "%d%b%Y:2400")`
and `datetime.strftime(dt, "%d%b%Y:0000")` are standard-library
collaborators; they are modelled for the fixed-width day/month/year forms
carried by DSS pathname D/E parts. -/

/-- The table of three-letter month abbreviations. -/
def monthTable : List (List Char × Nat) :=
  [(['J', 'A', 'N'], 1), (['F', 'E', 'B'], 2), (['M', 'A', 'R'], 3),
   (['A', 'P', 'R'], 4), (['M', 'A', 'Y'], 5), (['J', 'U', 'N'], 6),
   (['J', 'U', 'L'], 7), (['A', 'U', 'G'], 8), (['S', 'E', 'P'], 9),
   (['O', 'C', 'T'], 10), (['N', 'O', 'V'], 11), (['D', 'E', 'C'], 12)]

/-- Month number of a three-letter month abbreviation, case-insensitively
(as `strptime`'s `%b`). -/
def monthFromCode (s : List Char) : Option Nat :=
  List.lookup (s.map Char.toUpper) monthTable

/-- The capitalized month abbreviation produced by `strftime`'s `%b`. -/
def monthCode : Nat → List Char
  | 1 => ['J', 'a', 'n'] | 2 => ['F', 'e', 'b'] | 3 => ['M', 'a', 'r']
  | 4 => ['A', 'p', 'r'] | 5 => ['M', 'a', 'y'] | 6 => ['J', 'u', 'n']
  | 7 => ['J', 'u', 'l'] | 8 => ['A', 'u', 'g'] | 9 => ['S', 'e', 'p']
  | 10 => ['O', 'c', 't'] | 11 => ['N', 'o', 'v'] | _ => ['D', 'e', 'c']

/-- Parse exactly two digits. -/
def parse2 : List Char → Option (Nat × List Char)
  | c1 :: c2 :: rest =>
    if c1.isDigit && c2.isDigit then some (digitVal c1 * 10 + digitVal c2, rest)
    else none
  | _ => none

/-- Parse exactly four digits. -/
def parse4 : List Char → Option (Nat × List Char)
  | c1 :: c2 :: c3 :: c4 :: rest =>
    if c1.isDigit && c2.isDigit && c3.isDigit && c4.isDigit then
      some (digitVal c1 * 1000 + digitVal c2 * 100 + digitVal c3 * 10 + digitVal c4, rest)
    else none
  | _ => none

/-- Two-digit zero-padded rendering (`%d`, `%H`, `%M`). -/
def format2 (n : Nat) : List Char := [digitChar (n / 10), digitChar (n % 10)]

/-- Four-digit zero-padded rendering (`%Y`). -/
def format4 (n : Nat) : List Char :=
  [digitChar (n / 1000), digitChar (n / 100 % 10), digitChar (n / 10 % 10), digitChar (n % 10)]

/-- Shared date prefix of the two formats: `%d%b%Y`, then hand the rest to a
continuation check.  Returns day, month, year and the remaining input. -/
def parseDMY (s : List Char) : Option (Nat × Nat × Nat × List Char) :=
  (parse2 s).bind fun p =>
    match p.2 with
    | m1 :: m2 :: m3 :: r2 =>
      (monthFromCode [m1, m2, m3]).bind fun m =>
        (parse4 r2).map fun q => (p.1, m, q.1, q.2)
    | _ => none

/-- Model of `datetime.strptime(s, "%d%b%Y:%H%M")` on the fixed-width DSS
date form, including the range checks `strptime`/`datetime` enforce. -/
def strptimeDMYHM (s : List Char) : Option PyDateTime :=
  match parseDMY s with
  | none => none
  | some (d, m, y, r3) =>
    match r3 with
    | c :: h1 :: h2 :: mi1 :: mi2 :: rest =>
      if c = ':' ∧ rest = [] ∧
          (h1.isDigit && h2.isDigit && mi1.isDigit && mi2.isDigit) = true then
        let h := digitVal h1 * 10 + digitVal h2
        let mi := digitVal mi1 * 10 + digitVal mi2
        if 1 ≤ y ∧ y ≤ 9999 ∧ 1 ≤ d ∧ d ≤ daysInMonth y m ∧ h ≤ 23 ∧ mi ≤ 59 then
          some ⟨y, m, d, h, mi⟩
        else none
      else none
    | _ => none

/-- Model of `datetime.strptime(s, "%d%b%Y:2400")`: the date fields
followed by the literal text `:2400`; hour and minute default to zero. -/
def strptime2400 (s : List Char) : Option PyDateTime :=
  match parseDMY s with
  | none => none
  | some (d, m, y, r3) =>
    if r3 = [':', '2', '4', '0', '0'] then
      if 1 ≤ y ∧ y ≤ 9999 ∧ 1 ≤ d ∧ d ≤ daysInMonth y m then
        some ⟨y, m, d, 0, 0⟩
      else none
    else none

/-- Model of `temp_dt.strftime("%d%b%Y:0000")`. -/
def strftime0000 (dt : PyDateTime) : List Char :=
  format2 dt.day ++ monthCode dt.month ++ format4 dt.year ++ [':', '0', '0', '0', '0']

/-! ## `get_precip_record_datetimes`
(`src/rtsutils/cavi/jython/jutil.py`, lines 145-169) -/

/-- Start and end datetimes of a DSS precip record pathname.  The D part
(field index 4 of the slash split) and E part (index 5) are parsed with
`%d%b%Y:%H%M`; an E part ending in `2400` is first rolled over to `0000`
of the following day.  `strptime` failures raise `ValueError`; a short
split raises `IndexError`. -/
def get_precip_record_datetimes (pathname : List Char) :
    Except PyErr (PyDateTime × PyDateTime) :=
  let split_path := splitChar '/' pathname
  match split_path[4]?, split_path[5]? with
  | some d_part, some e_part =>
    let e_res : Except PyErr (List Char) :=
      if ['2', '4', '0', '0'].isSuffixOf e_part then
        match strptime2400 e_part with
        | some temp_dt => .ok (strftime0000 (addOneDay temp_dt))
        | none => .error .valueError
      else .ok e_part
    match e_res with
    | .error e => .error e
    | .ok e_part2 =>
      match strptimeDMYHM d_part, strptimeDMYHM e_part2 with
      | some sdt, some edt => .ok (sdt, edt)
      | _, _ => .error .valueError
  | _, _ => .error .indexError

/-! ## Interval Resolver
(`src/rtsutils/cavi/jython/ui/cumulus.py`, `Cumulus.adjust_dates_by_cache`
lines 294-325, `Cumulus.remove_observed_products` lines 327-336, and the
`use_cache` window logic of `Cumulus.execute` lines 97-116) -/

/-- The slice of Cumulus product metadata the resolver consults.  The
source looks each configured product id up in the metadata
(`get_product_by_id`); the embedding iterates over the resolved product
dictionaries directly.  `last_forecast_version` is a nullable string:
`adjust_dates_by_cache` tests its truthiness, `remove_observed_products`
tests it against `None`. -/
structure Product where
  id : Nat
  last_forecast_version : Option (List Char)
  dss_fpart : List Char
deriving DecidableEq, Repr

/-- Python truthiness of a nullable string. -/
def optStrTruthy : Option (List Char) → Bool
  | none => false
  | some s => !s.isEmpty

/-- `Cumulus.adjust_dates_by_cache`: walk the configured products in order;
skip products whose `last_forecast_version` is truthy; stop at the first
product whose existing-data scan returns no range; otherwise move `after`
forward to `data_end` when `data_end > after > data_start` and move
`before` back to `data_start` when `data_end > before > data_start`.
`lookup` models `jutil.get_existing_precip_data_range` on the configured
DSS file (an external store scan). -/
def adjust_dates_by_cache (lookup : Product → Option (PyDateTime × PyDateTime)) :
    List Product → PyDateTime → PyDateTime → PyDateTime × PyDateTime
  | [], after, before => (after, before)
  | p :: ps, after, before =>
    if optStrTruthy p.last_forecast_version then
      adjust_dates_by_cache lookup ps after before
    else
      match lookup p with
      | none => (after, before)
      | some (data_start, data_end) =>
        let after2 :=
          if toMinutes data_end > toMinutes after ∧ toMinutes after > toMinutes data_start
          then data_end else after
        let before2 :=
          if toMinutes data_end > toMinutes before ∧ toMinutes before > toMinutes data_start
          then data_start else before
        adjust_dates_by_cache lookup ps after2 before2

/-- `Cumulus.remove_observed_products`: keep exactly the products whose
`last_forecast_version` is not `None`. -/
def remove_observed_products (products : List Product) : List Product :=
  products.filter (fun p => p.last_forecast_version.isSome)

/-- The cache-aware window logic of `Cumulus.execute` (`use_cache=True`):
adjust the window by the cache, then, when the adjusted window is empty
(`before <= after`), drop all observed products; otherwise keep the product
list as requested.  Returns the resolved window and product list. -/
def resolve (lookup : Product → Option (PyDateTime × PyDateTime))
    (products : List Product) (after before : PyDateTime) :
    (PyDateTime × PyDateTime) × List Product :=
  let adjusted := adjust_dates_by_cache lookup products after before
  if toMinutes adjusted.2 ≤ toMinutes adjusted.1 then
    (adjusted, remove_observed_products products)
  else (adjusted, products)

/-- The timeout computation of `Cumulus.execute` lines 110-113, reached
when the adjusted window is non-empty:
```
totalTime = after - before
timeout = int(totalTime.days * 20)
if timeout < 300:
    timeout = 300
```
`timedelta.days` floors towards negative infinity. -/
def compute_timeout (after before : PyDateTime) : Int :=
  let totalDays := Int.fdiv (toMinutes after - toMinutes before) 1440
  let timeout := totalDays * 20
  if timeout < 300 then 300 else timeout

/-- The timeout formula asserted by the specification:
20 seconds per whole day of `before - after`, floored at 300. -/
def claimed_timeout (after before : PyDateTime) : Int :=
  max (20 * Int.fdiv (toMinutes before - toMinutes after) 1440) 300

/-! ## `Cumulus.get_metadata`
(`src/rtsutils/cavi/jython/ui/cumulus.py`, lines 167-210) -/

/-- The Go request configuration.  The keys `get_metadata` writes are
explicit fields; every other key (`After`, `Before`, `ID`, `Products`,
...) is carried opaquely in `rest`. -/
structure GoConfig where
  stdOut : List Char
  subcommand : List Char
  endpoint : List Char
  rest : List (List Char × List Char)
deriving DecidableEq, Repr

/-- The class-level mutable state of `Cumulus` touched by `get_metadata`. -/
structure CState where
  go_config : GoConfig
  products_meta : Option JVal
  watersheds_meta : Option JVal

/-- Python truthiness of a cached metadata slot. -/
def metaTruthy : Option JVal → Bool
  | none => false
  | some v => jvTruthy v

/-- Errors `get_metadata` can raise: `CumulusConnectionError` with the
worker's stderr text, or a `json.loads` failure. -/
inductive MetaErr where
  | connection (stderr : List Char)
  | valueError
deriving DecidableEq

/-- `Cumulus.get_metadata`: return cached metadata when both slots are
truthy; otherwise snapshot `go_config`, point it at the `products` and
`watersheds` endpoints in turn, run the Go worker (`goGet`, an external
process returning `(stdout, stderr)`), raise `CumulusConnectionError` when
its stderr contains `"error"`, decode each payload with `json.loads`, and
restore the snapshot in a `finally` block on every exit path. -/
def get_metadata (goGet : GoConfig → List Char × List Char) (s : CState) :
    Except MetaErr (JVal × JVal) × CState :=
  if metaTruthy s.products_meta && metaTruthy s.watersheds_meta then
    (match s.products_meta, s.watersheds_meta with
     | some pm, some wm => (.ok (pm, wm), s)
     | _, _ => (.error .valueError, s))
  else
    let orig := s.go_config
    let c1 : GoConfig :=
      { s.go_config with stdOut := "true".data, subcommand := "get".data,
                         endpoint := "products".data }
    let ps_out := (goGet c1).1
    let stderr1 := (goGet c1).2
    if containsSub "error".data stderr1 then
      (.error (.connection stderr1), { s with go_config := orig })
    else
      match json_loads ps_out with
      | none => (.error .valueError, { s with go_config := orig })
      | some pm =>
        let c2 : GoConfig := { c1 with endpoint := "watersheds".data }
        let ws_out := (goGet c2).1
        let stderr2 := (goGet c2).2
        if containsSub "error".data stderr2 then
          (.error (.connection stderr2),
           { s with go_config := orig, products_meta := some pm })
        else
          match json_loads ws_out with
          | none => (.error .valueError,
                     { s with go_config := orig, products_meta := some pm })
          | some wm =>
            (.ok (pm, wm),
             { go_config := orig, products_meta := some pm,
               watersheds_meta := some wm })

/-! ## Fetch Orchestrator result handling
(`src/rtsutils/cavi/jython/ui/cumulus.py`, `Cumulus.execute` lines 118-140) -/

/-- The outcome `Cumulus.execute` derives from the worker's channels. -/
inductive RunOutcome where
  | failed (msg : List Char)
  | completed (path : List Char)
deriving DecidableEq, Repr

/-- The result handling at the end of `Cumulus.execute`: when the
accumulated stderr contains `"error"`, the run fails with
`stderr.split("::")[-1]` and stdout is never read; otherwise
`_, file_path = stdout.split("::")` (a `ValueError` unless the split has
exactly two parts) and the second part is the downloaded artifact path. -/
def run_result (stdout stderr : List Char) : Except PyErr RunOutcome :=
  if containsSub "error".data stderr then .ok (.failed (lastSplitDC stderr))
  else
    match splitDC stdout with
    | [_, file_path] => .ok (.completed file_path)
    | _ => .error .valueError

/-! ## Go diagnostic line translation
(`src/rtsutils/go/__init__.py`, `__parse_go_output` lines 75-92 and the
realtime branch of `get` lines 56-68) -/

/-- Events published to the GUI callback. -/
inductive GoEvent where
  | progress (percent : Nat)
  | log (text : List Char)
deriving DecidableEq, Repr

/-- The leftmost digit run following a `Progress: ` occurrence, as matched
by `re.search(r"..Progress: (?P<progress>\d+)..", go_str)`; `none` when
the pattern never matches. -/
def findProgress : List Char → Option Nat
  | [] => none
  | s@(_ :: rest) =>
    if ['P', 'r', 'o', 'g', 'r', 'e', 's', 's', ':', ' '].isPrefixOf s then
      let tail10 := s.drop 10
      let ds := tail10.takeWhile Char.isDigit
      if ds.isEmpty then findProgress rest else some (digitsToNat ds)
    else findProgress rest

/-- `__parse_go_output` on one decoded, stripped line: publish a progress
event when the line contains `Progress:` (an `AttributeError` escapes when
the regex then fails to match); publish nothing more for a
`Status: INITIATED` line; otherwise also publish the line itself.  Returns
the published events in order. -/
def parse_go_output (go_str : List Char) : Except PyErr (List GoEvent) :=
  let progressPart : Except PyErr (List GoEvent) :=
    if containsSub "Progress:".data go_str then
      match findProgress go_str with
      | some n => .ok [.progress n]
      | none => .error .attributeError
    else .ok []
  match progressPart with
  | .error e => .error e
  | .ok evs =>
    if containsSub "Status: INITIATED".data go_str then .ok evs
    else .ok (evs ++ [.log go_str])

/-- The realtime branch of `go.get` with a publish callback: each stderr
line is stripped, decoded and fed to `__parse_go_output` as it arrives;
the published events are concatenated in arrival order.  An escaping
exception aborts the loop. -/
def realtime_events : List (List Char) → Except PyErr (List GoEvent)
  | [] => .ok []
  | line :: lines =>
    match parse_go_output (pyStrip line) with
    | .error e => .error e
    | .ok evs =>
      match realtime_events lines with
      | .ok rest => .ok (evs ++ rest)
      | .error e => .error e

/-! ## Ingestion: `put_to_dss` and the record loop
(`src/watershed_scripts/access_water_extract.py`, `put_to_dss` lines
60-128 and the module-level loop lines 191-200) -/

/-- The parameter-code table `usgs_code`:
code ↦ (Parameter, Unit, Data Type, DSS Fpart). -/
def usgs_code : List (List Char × (List Char × List Char × List Char × List Char)) :=
  [("00065".data, ("Stage".data, "feet".data, "inst-val".data, "a2w".data)),
   ("00061".data, ("Flow".data, "cfs".data, "per-aver".data, "a2w".data)),
   ("00060".data, ("Flow".data, "cfs".data, "inst-val".data, "a2w".data))]

/-- The string Python's `format` produces for the JSON field values that
`put_to_dss` interpolates (site numbers are strings or numbers in
practice). -/
def pyStr : JVal → List Char
  | .jstr s => s
  | .jnum ip [] => (toString ip).data
  | .jnum ip frac => (toString ip).data ++ '.' :: frac
  | .jbool true => "True".data
  | .jbool false => "False".data
  | .jnull => "None".data
  | _ => []

/-- The `hec.io.TimeSeriesContainer` fields `put_to_dss` assigns before
handing the container to the HEC libraries. -/
structure Tsc where
  fullName : List Char
  location : List Char
  parameter : List Char
  dtype : List Char
  version : List Char
  interval : Option Int
  units : List Char
  times : List Int
  values : JVal
  numberValues : Nat
  startTime : Int
  endTime : Int

/-- The external HEC/DSS collaborators `put_to_dss` calls, each of which
may raise: `HecTime(t, MINUTE_GRANULARITY).value()`,
`TimeStep().getEPartFromIntervalMinutes`, `tsc.makeAscending()`,
`TimeSeriesFunctions.isIregular`, `snapToRegularTimeSeries` and
`dss.put`. -/
structure ExtOps where
  hecTimeValue : JVal → Except PyErr Int
  getEPart : Option Int → Except PyErr (List Char)
  makeAscending : Tsc → Except PyErr Tsc
  isIregular : Tsc → Except PyErr Bool
  snap : Tsc → List Char → Except PyErr Tsc
  dssPut : Tsc → Except PyErr Unit

/-- The minimal-spacing fold of `put_to_dss`:
```
timestep_min = None
for i, t in enumerate(range(len(times) - 1)):
    ts = abs(times[t + 1] - times[t])
    if ts < timestep_min or timestep_min is None:
        timestep_min = ts
```
In Jython 2, `int < None` is `False`, so this keeps the first occurrence
of the minimal adjacent gap. -/
def timestep_min_fold (times : List Int) : Option Int :=
  (times.zip times.tail).foldl
    (fun acc p =>
      let ts := |p.2 - p.1|
      match acc with
      | none => some ts
      | some m => if ts < m then some ts else acc)
    none

/-- The attribute access `Site.<key>` on the namedtuple built from the
record object: `AttributeError` when the key is absent. -/
def siteAttr (fields : List (List Char × JVal)) (key : List Char) :
    Except PyErr JVal :=
  match objGet key fields with
  | some v => .ok v
  | none => .error .attributeError

/-- The message `put_to_dss` returns when `dss.put` raises:
`'Site: "<site_number>" not saved to DSS'`. -/
def notSavedMsg (site_number : List Char) : List Char :=
  "Site: ".data ++ [qChar] ++ site_number ++ [qChar] ++ " not saved to DSS".data

/-- Everything `put_to_dss` does before the `try: dss.put(tsc)` guard:
look the record's `code` up in `usgs_code` (an uncaught `KeyError` when
absent), convert the times, find the minimal spacing, derive the interval
code, build the pathname and container, sort it and snap it to the regular
grid when irregular.  Returns the site number and the container to put. -/
def buildTsc (ext : ExtOps) (site : JVal) : Except PyErr (List Char × Tsc) := do
  match site with
  | .jobj fields => do
    let codeV ← siteAttr fields "code".data
    let codes ←
      match codeV with
      | .jstr c =>
        match List.lookup c usgs_code with
        | some q => Except.ok q
        | none => Except.error PyErr.keyError
      | _ => Except.error PyErr.keyError
    let (parameter, _unit, data_type, version) := codes
    let timesV ← siteAttr fields "times".data
    let timesL ←
      match timesV with
      | .jarr ts => Except.ok ts
      | _ => Except.error PyErr.typeError
    let times ← timesL.mapM ext.hecTimeValue
    let timestep_min := timestep_min_fold times
    let epart ← ext.getEPart timestep_min
    let siteNumV ← siteAttr fields "site_number".data
    let site_number := pyStr siteNumV
    let pathname := pyUpper
      ('/' :: '/' :: site_number ++ '/' :: parameter ++ '/' :: '/' :: epart
        ++ '/' :: version ++ ['/'])
    let parts := (splitChar '/' pathname).drop 1 |>.dropLast
    let (apart, _fpart) ←
      match parts with
      | [a, _b, _c, _d, _e, f] => Except.ok (a, f)
      | _ => Except.error PyErr.valueError
    let valuesV ← siteAttr fields "values".data
    let startTime ←
      match times[0]? with
      | some t => Except.ok t
      | none => Except.error PyErr.indexError
    let endTime ←
      match times.getLast? with
      | some t => Except.ok t
      | none => Except.error PyErr.indexError
    let tsc : Tsc :=
      { fullName := pathname, location := apart, parameter := parameter,
        dtype := data_type, version := version, interval := timestep_min,
        units := _unit, times := times, values := valuesV,
        numberValues := timesL.length, startTime := startTime,
        endTime := endTime }
    let tsc ← ext.makeAscending tsc
    let irregular ← ext.isIregular tsc
    let tsc ← if irregular then ext.snap tsc epart else pure tsc
    Except.ok (site_number, tsc)
  | _ => .error .attributeError

/-- `put_to_dss`: build the container, then `dss.put` inside the only
`try`/`except` of the function — a put failure is caught and converted to
a returned not-saved message, every earlier failure escapes. -/
def put_to_dss (ext : ExtOps) (site : JVal) : Except PyErr (Option (List Char)) :=
  match buildTsc ext site with
  | .error e => .error e
  | .ok (site_number, tsc) =>
    match ext.dssPut tsc with
    | .ok _ => .ok none
    | .error _ => .ok (some (notSavedMsg site_number))

/-- The per-record body of the module-level ingestion loop, applied to the
decoded records in order: a record carrying a `message` key raises a
run-terminating `Exception`; otherwise `put_to_dss` runs and its returned
message (if any) is printed.  Any exception escaping `put_to_dss` aborts
the loop. -/
def ingest_loop (ext : ExtOps) : List JVal → Except PyErr (List (Option (List Char)))
  | [] => .ok []
  | obj :: rest =>
    match obj with
    | .jobj fields =>
      match objGet "message".data fields with
      | some mv => .error (.exception (pyStr mv))
      | none =>
        match put_to_dss ext obj with
        | .error e => .error e
        | .ok msg =>
          match ingest_loop ext rest with
          | .ok msgs => .ok (msg :: msgs)
          | .error e => .error e
    | _ => .error .attributeError

end RtsUtils

deriving instance DecidableEq for Except

namespace RtsUtils

/-! ## Concrete fixtures used by witnesses and counterexamples -/

/-- 2024-01-01T00:00:00Z. -/
def jan1 : PyDateTime := ⟨2024, 1, 1, 0, 0⟩

/-- 2024-01-05T00:00:00Z. -/
def jan5 : PyDateTime := ⟨2024, 1, 5, 0, 0⟩

/-- 2024-01-10T00:00:00Z. -/
def jan10 : PyDateTime := ⟨2024, 1, 10, 0, 0⟩

/-- 2023-12-01T00:00:00Z. -/
def dec1 : PyDateTime := ⟨2023, 12, 1, 0, 0⟩

/-- 2023-12-31T00:00:00Z. -/
def dec31 : PyDateTime := ⟨2023, 12, 31, 0, 0⟩

/-- 2024-02-01T00:00:00Z. -/
def feb1 : PyDateTime := ⟨2024, 2, 1, 0, 0⟩

/-- 2024-03-01T00:00:00Z. -/
def mar1 : PyDateTime := ⟨2024, 3, 1, 0, 0⟩

/-- An observed (non-forecast) product. -/
def pObs1 : Product := ⟨1, none, "a2w".data⟩

/-- A second observed (non-forecast) product. -/
def pObs2 : Product := ⟨2, none, "a2w".data⟩

/-- A set of external HEC/DSS operations whose store `put` always fails
and whose remaining operations succeed trivially: times are taken from
the JSON numbers, the interval code is `15MIN`, the container is already
ascending and regular. -/
def trivExt : ExtOps :=
  { hecTimeValue := fun v =>
      match v with
      | .jnum n [] => .ok n
      | _ => .error .typeError,
    getEPart := fun _ => .ok "15MIN".data,
    makeAscending := fun t => .ok t,
    isIregular := fun _ => .ok false,
    snap := fun t _ => .ok t,
    dssPut := fun _ => .error (.exception "store down".data) }

/-- The fields of a well-formed stage record for site 0123. -/
def goodFields : List (List Char × JVal) :=
  [("code".data, .jstr "00065".data),
   ("site_number".data, .jstr "0123".data),
   ("times".data, .jarr [.jnum 0 [], .jnum 15 []]),
   ("values".data, .jarr [.jnum 1 [], .jnum 2 []])]

/-- A well-formed stage record for site 0123. -/
def goodSite : JVal := .jobj goodFields

/-- The container `buildTsc trivExt goodSite` produces. -/
def goodTsc : Tsc :=
  { fullName := "//0123/STAGE//15MIN/A2W/".data, location := [],
    parameter := "Stage".data, dtype := "inst-val".data,
    version := "a2w".data, interval := some 15, units := "feet".data,
    times := [0, 15], values := .jarr [.jnum 1 [], .jnum 2 []],
    numberValues := 2, startTime := 0, endTime := 15 }

/-- A record whose `code` has no entry in the `usgs_code` table. -/
def badSite : JVal :=
  .jobj [("code".data, .jstr "99999".data),
         ("site_number".data, .jstr "0123".data),
         ("times".data, .jarr [.jnum 0 [], .jnum 15 []]),
         ("values".data, .jarr [.jnum 1 [], .jnum 2 []])]

/-- The bytes of one valid record containing a nested object:
`{"a":{"b":1}}` with braces written as characters. -/
def nestedRecord : List Char :=
  [obChar, qChar, 'a', qChar, ':', obChar, qChar, 'b', qChar, ':', '1', cbChar, cbChar]

/-- The decoded value of `nestedRecord`. -/
def nestedValue : JVal := .jobj [("a".data, .jobj [("b".data, .jnum 1 [])])]

/-- The bytes of the flat record `{"a":1}`. -/
def flatRecord1 : List Char := [obChar, qChar, 'a', qChar, ':', '1', cbChar]

/-- The bytes of the flat record `{"b":2}`. -/
def flatRecord2 : List Char := [obChar, qChar, 'b', qChar, ':', '2', cbChar]

/-- The decoded value of `flatRecord1`. -/
def flatValue1 : JVal := .jobj [("a".data, .jnum 1 [])]

/-- The decoded value of `flatRecord2`. -/
def flatValue2 : JVal := .jobj [("b".data, .jnum 2 [])]

/-- The range lookup of the C2 scenario: every product has stored data
from `jan1` to `jan5`. -/
def lkStored15 : Product → Option (PyDateTime × PyDateTime) := fun _ => some (jan1, jan5)

/-- A range lookup where product 1 has stored data from `dec1` to `feb1`
and no other product has stored data. -/
def lkContained : Product → Option (PyDateTime × PyDateTime) :=
  fun p => if p.id = 1 then some (dec1, feb1) else none

/-! # Theorems for the specification claims -/

/-- Claim C6: for every run, when the accumulated diagnostic text contains
the substring `error`, the result is `Failed` with the text following the
last `::` separator and the payload channel is never consulted; otherwise
the run is `Completed` with the second element of the `::`-separated pair
read from the result channel. -/
theorem C6_run_result (stdout stderr x y : List Char) :
    (containsSub "error".data stderr = true →
      run_result stdout stderr = .ok (.failed (lastSplitDC stderr)) ∧
      ∀ other : List Char, run_result other stderr = run_result stdout stderr) ∧
    (containsSub "error".data stderr = false → splitDC stdout = [x, y] →
      run_result stdout stderr = .ok (.completed y)) := by
  constructor
  · intro h
    constructor
    · simp [run_result, h]
    · intro other; simp [run_result, h]
  · intro h hsplit
    simp [run_result, h, hsplit]

/-- Witness for C6 at concrete channel contents: a clean run completes
with the second element of the stdout pair, and a run whose stderr reads
`some error::disk full` fails with message `disk full`. -/
theorem C6_witness :
    run_result "a::b".data "all good".data = .ok (.completed "b".data) ∧
    run_result "ignored".data "some error::disk full".data = .ok (.failed "disk full".data) := by
  constructor
  · exact (C6_run_result "a::b".data "all good".data "a".data "b".data).2 (by decide) (by decide)
  · exact ((C6_run_result "ignored".data "some error::disk full".data [] []).1 (by decide)).1

/-- Claim C7: the claim states `timeout = max(20 × days(before − after), 300)`,
but `Cumulus.execute` computes `totalTime = after - before` (reversed), so
`totalTime.days * 20` is negative for every non-empty window and the
configured timeout is always the 300-second floor: for the 60-day window
`jan1 → mar1` the code yields 300 where the claimed formula yields 1200.
The code is evaluated at the failing input. -/
theorem C7_timeout :
    compute_timeout jan1 mar1 = 300 ∧
    claimed_timeout jan1 mar1 = 1200 ∧
    compute_timeout jan1 jan10 = 300 ∧
    claimed_timeout jan1 jan10 = 300 := by decide

/-- Claim C8: for every observed product whose stored range does not
overlap the (non-empty) requested window — it ends at or before `after`,
or starts at or after `before` — the resolver leaves the window unchanged
and keeps the product in scope. -/
theorem C8_resolver (after before ds de : PyDateTime) (p : Product)
    (hobs : p.last_forecast_version = none)
    (hwin : toMinutes after < toMinutes before)
    (hnono : toMinutes de ≤ toMinutes after ∨ toMinutes before ≤ toMinutes ds) :
    resolve (fun _ => some (ds, de)) [p] after before = ((after, before), [p]) := by
  have hft : optStrTruthy p.last_forecast_version = false := by rw [hobs]; rfl
  have h1 : ¬(toMinutes de > toMinutes after ∧ toMinutes after > toMinutes ds) := by
    rcases hnono with h | h <;> omega
  have h2 : ¬(toMinutes de > toMinutes before ∧ toMinutes before > toMinutes ds) := by
    rcases hnono with h | h <;> omega
  have h3 : ¬(toMinutes before ≤ toMinutes after) := by omega
  simp [resolve, adjust_dates_by_cache, hft, h1, h2, h3]

/-- Witness for C8: a stored range ending exactly at the requested `after`
leaves the window `jan1 → jan10` and the product list unchanged. -/
theorem C8_witness :
    resolve (fun _ => some (dec1, jan1)) [pObs1] jan1 jan10 = ((jan1, jan10), [pObs1]) :=
  C8_resolver jan1 jan10 dec1 jan1 pObs1 rfl (by decide) (Or.inl (by decide))

/-- Claim C9: `Cumulus.get_metadata` leaves the shared `go_config` equal to
its value at entry on every exit path — the cached early return, the
normal return, the `CumulusConnectionError` raise and the `json.loads`
failure — for every worker behaviour and every starting state, because
the snapshot is restored in a `finally` block. -/
theorem C9_get_metadata (goGet : GoConfig → List Char × List Char) (s : CState) :
    ((get_metadata goGet s).2).go_config = s.go_config := by
  unfold get_metadata
  dsimp only
  repeat' split
  all_goals rfl

/-- Claim C2, counterexample: in the specification's own scenario —
requested window `jan1 → jan10`, stored range `jan1 → jan5` — the
resolver leaves the window unchanged instead of returning the claimed
`jan5 → jan10`, because the code shrinks only when the stored range
starts strictly before `after` (`data_end > after > data_start`). -/
theorem C2_counterexample :
    adjust_dates_by_cache lkStored15 [pObs1] jan1 jan10 = (jan1, jan10) ∧
    adjust_dates_by_cache lkStored15 [pObs1] jan1 jan10 ≠ (jan5, jan10) := by
  constructor
  · decide
  · decide

/-- Claim C2, amended: for an observed product the resolver moves `after`
up to `StoredRange.end` exactly when the stored range starts strictly
before the requested `after` and ends strictly after it; when the stored
range starts at (or after) `after`, the requested `after` is returned
unchanged. -/
theorem C2_resolver (after before ds de : PyDateTime) (p : Product)
    (hobs : p.last_forecast_version = none) :
    (toMinutes ds < toMinutes after → toMinutes after < toMinutes de →
      (adjust_dates_by_cache (fun _ => some (ds, de)) [p] after before).1 = de) ∧
    (toMinutes after ≤ toMinutes ds →
      (adjust_dates_by_cache (fun _ => some (ds, de)) [p] after before).1 = after) := by
  have hft : optStrTruthy p.last_forecast_version = false := by rw [hobs]; rfl
  constructor
  · intro h1 h2
    have hc : toMinutes de > toMinutes after ∧ toMinutes after > toMinutes ds := ⟨h2, h1⟩
    simp [adjust_dates_by_cache, hft, hc]
  · intro h1
    have hc : ¬(toMinutes de > toMinutes after ∧ toMinutes after > toMinutes ds) := by omega
    simp [adjust_dates_by_cache, hft, hc]

/-- Witness for the amended C2: a stored range `dec31 → jan5` (starting
strictly before `jan1`) moves `after` to `jan5`, while the scenario range
`jan1 → jan5` leaves `after` at `jan1`. -/
theorem C2_witness :
    (adjust_dates_by_cache (fun _ => some (dec31, jan5)) [pObs1] jan1 jan10).1 = jan5 ∧
    (adjust_dates_by_cache (fun _ => some (jan1, jan5)) [pObs1] jan1 jan10).1 = jan1 :=
  ⟨(C2_resolver jan1 jan10 dec31 jan5 pObs1 rfl).1 (by decide) (by decide),
   (C2_resolver jan1 jan10 jan1 jan5 pObs1 rfl).2 (by decide)⟩

/-- Claim C3, counterexample: the line `Progress: 42` is not translated to
a single `Progress(42)` event — `__parse_go_output` has no early return
after the progress publish, so the line is also surfaced as a `Log`
event. -/
theorem C3_counterexample :
    parse_go_output "Progress: 42".data =
      .ok [.progress 42, .log "Progress: 42".data] ∧
    parse_go_output "Progress: 42".data ≠ .ok [.progress 42] := by
  constructor
  · decide
  · decide

/-- Claim C3, amended: each diagnostic line is translated as follows — an
ordinary line yields exactly one `Log` event; an initiated-marker line
yields no event; a line matching the progress pattern yields a
`Progress(percent)` event and (unless it also carries the initiated
marker) additionally a `Log` event with the raw line; the realtime loop
delivers each line's events before any later line's, in arrival order. -/
theorem C3_parse_go_output :
    (∀ s : List Char, containsSub "Progress:".data s = false →
      containsSub "Status: INITIATED".data s = false →
      parse_go_output s = .ok [.log s]) ∧
    (∀ s : List Char, containsSub "Progress:".data s = false →
      containsSub "Status: INITIATED".data s = true →
      parse_go_output s = .ok []) ∧
    (∀ (s : List Char) (n : Nat), containsSub "Progress:".data s = true →
      findProgress s = some n →
      containsSub "Status: INITIATED".data s = false →
      parse_go_output s = .ok [.progress n, .log s]) ∧
    (∀ (line : List Char) (lines : List (List Char)) (evs : List GoEvent),
      parse_go_output (pyStrip line) = .ok evs →
      realtime_events (line :: lines) =
        match realtime_events lines with
        | .ok rest => .ok (evs ++ rest)
        | .error e => .error e) := by
  refine ⟨fun s h1 h2 => ?_, fun s h1 h2 => ?_, fun s n h1 h2 h3 => ?_, fun l ls evs h => ?_⟩
  · simp [parse_go_output, h1, h2]
  · simp [parse_go_output, h1, h2]
  · simp [parse_go_output, h1, h2, h3]
  · simp only [realtime_events]
    rw [h]

/-- Witness for the amended C3 on concrete lines: a plain line logs, the
initiated line is swallowed, a progress line produces both events, and
the realtime loop strips and forwards a line. -/
theorem C3_witness :
    parse_go_output "downloading grid.dss".data = .ok [.log "downloading grid.dss".data] ∧
    parse_go_output "Status: INITIATED".data = .ok [] ∧
    parse_go_output "Progress: 7".data = .ok [.progress 7, .log "Progress: 7".data] ∧
    realtime_events [" done \n".data] = .ok [.log "done".data] := by
  refine ⟨?_, ?_, ?_, ?_⟩
  · exact C3_parse_go_output.1 _ (by decide) (by decide)
  · exact C3_parse_go_output.2.1 _ (by decide) (by decide)
  · exact C3_parse_go_output.2.2.1 _ 7 (by decide) (by decide) (by decide)
  · have h := C3_parse_go_output.2.2.2 " done \n".data [] [.log "done".data] (by decide)
    simpa using h

/-- Claim C5, counterexample: with product 1's stored range `dec1 → feb1`
fully containing the request `jan1 → jan10` and product 2 having no
stored data, the resolver inverts the single shared window and drops
BOTH observed products — product 2 is not left unaffected as the claim
states. -/
theorem C5_counterexample :
    resolve lkContained [pObs1, pObs2] jan1 jan10 = ((feb1, dec1), []) ∧
    pObs2 ∉ (resolve lkContained [pObs1, pObs2] jan1 jan10).2 := by
  constructor
  · decide
  · decide

/-- Claim C5, amended: there is a single shared window, not per-product
windows.  A stored range strictly containing the request inverts the
shared window to `(range.end, range.start)`; whenever the adjusted shared
window is empty, every observed (non-forecast) product — covered or not —
is dropped and only forecast products remain. -/
theorem C5_resolver :
    (∀ (lookup : Product → Option (PyDateTime × PyDateTime)) (ps : List Product)
       (a b : PyDateTime),
      toMinutes (adjust_dates_by_cache lookup ps a b).2 ≤
        toMinutes (adjust_dates_by_cache lookup ps a b).1 →
      (resolve lookup ps a b).2 = remove_observed_products ps ∧
      ∀ p ∈ ps, p.last_forecast_version = none → p ∉ (resolve lookup ps a b).2) ∧
    (∀ (a b ds de : PyDateTime) (p : Product), p.last_forecast_version = none →
      toMinutes ds < toMinutes a → toMinutes a < toMinutes b →
      toMinutes b < toMinutes de →
      resolve (fun _ => some (ds, de)) [p] a b = ((de, ds), [])) := by
  constructor
  · intro lookup ps a b h
    have hres : (resolve lookup ps a b).2 = remove_observed_products ps := by
      simp [resolve, h]
    refine ⟨hres, fun p hp hobs => ?_⟩
    rw [hres]
    simp [remove_observed_products, List.mem_filter, hobs]
  · intro a b ds de p hobs h1 h2 h3
    have hft : optStrTruthy p.last_forecast_version = false := by rw [hobs]; rfl
    have hc1 : toMinutes de > toMinutes a ∧ toMinutes a > toMinutes ds := by omega
    have hc2 : toMinutes de > toMinutes b ∧ toMinutes b > toMinutes ds := by omega
    have hle : toMinutes ds ≤ toMinutes de := by omega
    simp [resolve, adjust_dates_by_cache, hft, hc1, hc2, hle,
          remove_observed_products, hobs, optStrTruthy]

/-- Witness for the amended C5: product 1's containing range inverts the
window and empties the product list; in the two-product setup even the
uncovered observed product 1 is dropped once the window is empty. -/
theorem C5_witness :
    resolve (fun _ => some (dec1, feb1)) [pObs1] jan1 jan10 = ((feb1, dec1), []) ∧
    pObs1 ∉ (resolve lkContained [pObs1, pObs2] jan1 jan10).2 := by
  constructor
  · exact C5_resolver.2 jan1 jan10 dec1 feb1 pObs1 rfl (by decide) (by decide) (by decide)
  · exact (C5_resolver.1 lkContained [pObs1, pObs2] jan1 jan10 (by decide)).2 pObs1
      (by simp) rfl

/-- Claim C1, counterexample: a record whose code (`99999`) has no entry
in the parameter-code table is not recorded as `Skipped` — the table
lookup raises an uncaught `KeyError` that escapes the ingestion loop to
its caller, and the following record is never processed. -/
theorem C1_counterexample :
    put_to_dss trivExt badSite = .error .keyError ∧
    ingest_loop trivExt [badSite, goodSite] = .error .keyError := ⟨rfl, rfl⟩

/-- Claim C1, amended: only the store write (`dss.put`) is guarded — a
store-write failure is caught and recorded as a returned not-saved
message, and the loop proceeds to the next record with that outcome; but
a failure before the put (unknown parameter code, time conversion,
interval derivation, regularization) escapes the loop as an exception. -/
theorem C1_ingest :
    (∀ (ext : ExtOps) (site : JVal) (sn : List Char) (tsc : Tsc) (e : PyErr),
      buildTsc ext site = .ok (sn, tsc) → ext.dssPut tsc = .error e →
      put_to_dss ext site = .ok (some (notSavedMsg sn))) ∧
    (∀ (ext : ExtOps) (fields : List (List Char × JVal)) (rest : List JVal)
       (msg : Option (List Char)),
      objGet "message".data fields = none →
      put_to_dss ext (.jobj fields) = .ok msg →
      ingest_loop ext (.jobj fields :: rest) =
        match ingest_loop ext rest with
        | .ok msgs => .ok (msg :: msgs)
        | .error e => .error e) := by
  constructor
  · intro ext site sn tsc e hb hp
    simp [put_to_dss, hb, hp]
  · intro ext fields rest msg hm hp
    simp [ingest_loop, hm, hp]

/-- Witness for the amended C1: against a store whose `put` always fails,
a well-formed record yields the caught not-saved outcome and the loop
returns it instead of raising. -/
theorem C1_witness :
    put_to_dss trivExt goodSite = .ok (some (notSavedMsg "0123".data)) ∧
    ingest_loop trivExt [goodSite] = .ok [some (notSavedMsg "0123".data)] := by
  have h1 : buildTsc trivExt goodSite = .ok ("0123".data, goodTsc) := rfl
  have hput := C1_ingest.1 trivExt goodSite "0123".data goodTsc
    (.exception "store down".data) h1 rfl
  refine ⟨hput, ?_⟩
  have h2 := C1_ingest.2 trivExt goodFields [] (some (notSavedMsg "0123".data)) rfl hput
  simpa using h2

/-- Claim C4, counterexample: the bytes of the single valid record
`{"a":{"b":1}}` — which `json.loads` decodes in full — are not yielded
as one intact record: the decoder fires at every object-close byte with
no depth tracking, so at the inner close brace it attempts to decode the
unbalanced buffer and the resulting `ValueError` terminates the stream. -/
theorem C4_counterexample :
    json_loads nestedRecord = some nestedValue ∧
    decode nestedRecord = .error .valueError := ⟨rfl, rfl⟩

/-- Processing a run of bytes containing no object-close delimiter only
moves it into the accumulation buffer. -/
theorem decodeAux_append (pre : List Char) (h : ∀ c ∈ pre, c ≠ cbChar)
    (buf rest : List Char) :
    decodeAux buf (pre ++ rest) = decodeAux (buf ++ pre) rest := by
  induction pre generalizing buf with
  | nil => simp
  | cons c cs ih =>
    have hc : c ≠ cbChar := h c (List.mem_cons_self c cs)
    have hcs : ∀ x ∈ cs, x ≠ cbChar := fun x hx => h x (List.mem_cons_of_mem c hx)
    simp only [List.cons_append, decodeAux]
    rw [if_neg hc]
    have h2 := ih hcs (buf ++ [c])
    rw [List.append_assoc] at h2
    exact h2

/-- A record whose only object-close byte is its final byte is emitted as
one unit, and the buffer restarts empty for the rest of the stream. -/
theorem decode_cons_record (body rest : List Char) (v : JVal)
    (hb : ∀ c ∈ body, c ≠ cbChar)
    (hp : json_loads (body ++ [cbChar]) = some v) :
    decodeAux [] (body ++ [cbChar] ++ rest) =
      match decodeAux [] rest with
      | .ok vs => .ok (v :: vs)
      | .error e => .error e := by
  rw [List.append_assoc, decodeAux_append body hb []]
  simp only [List.nil_append, List.singleton_append, decodeAux]
  rw [if_pos trivial, hp]
  rfl

/-- Claim C4, amended: the decoder keeps an accumulation buffer and
attempts a whole-buffer decode at every object-close byte, without depth
tracking; consequently a stream of valid records is yielded intact, in
order, exactly when each record's only object-close byte is its final
byte (no nested objects). -/
theorem C4_decoder (records : List (List Char × JVal))
    (h : ∀ r ∈ records, (∀ c ∈ r.1.dropLast, c ≠ cbChar) ∧
         r.1.getLast? = some cbChar ∧ json_loads r.1 = some r.2) :
    decode (records.map Prod.fst).flatten = .ok (records.map Prod.snd) := by
  induction records with
  | nil => rfl
  | cons r rs ih =>
    obtain ⟨hb, hl, hp⟩ := h r (List.mem_cons_self r rs)
    have hrs := fun x hx => h x (List.mem_cons_of_mem r hx)
    have hne : r.1 ≠ [] := by
      intro he; rw [he] at hl; simp at hl
    have hlast : r.1.getLast hne = cbChar := by
      have h2 := List.getLast?_eq_getLast r.1 hne
      rw [h2] at hl
      exact Option.some_injective _ hl
    have hrep : r.1.dropLast ++ [cbChar] = r.1 := by
      conv_rhs => rw [← List.dropLast_append_getLast hne]
      rw [hlast]
    have hp2 : json_loads (r.1.dropLast ++ [cbChar]) = some r.2 := by rw [hrep]; exact hp
    have key := decode_cons_record r.1.dropLast ((rs.map Prod.fst).flatten) r.2 hb hp2
    simp only [List.map_cons, List.flatten_cons]
    unfold decode
    rw [← hrep, key]
    unfold decode at ih
    rw [ih hrs]

/-- Witness for the amended C4: the two flat records `{"a":1}{"b":2}`
stream through the decoder intact and in order. -/
theorem C4_witness :
    decode (flatRecord1 ++ flatRecord2) = .ok [flatValue1, flatValue2] := by
  have h := C4_decoder [(flatRecord1, flatValue1), (flatRecord2, flatValue2)] ?_
  · simpa using h
  · intro r hr
    simp only [List.mem_cons, List.not_mem_nil, or_false] at hr
    rcases hr with rfl | rfl
    · exact ⟨by decide, by decide, rfl⟩
    · exact ⟨by decide, by decide, rfl⟩


/-- Every month has at most 31 days. -/
theorem daysInMonth_le31 (y m : Nat) : daysInMonth y m ≤ 31 := by
  unfold daysInMonth; split_ifs <;> omega

/-- Every month has at least one day. -/
theorem daysInMonth_pos (y m : Nat) : 1 ≤ daysInMonth y m := by
  unfold daysInMonth; split_ifs <;> omega

/-- `strptime`'s month parsing inverts `strftime`'s month rendering. -/
theorem monthFromCode_monthCode (m : Nat) (h1 : 1 ≤ m) (h2 : m ≤ 12) :
    monthFromCode (monthCode m) = some m := by
  interval_cases m <;> decide

/-- A rendered digit is a digit character with the rendered value. -/
theorem digitChar_spec (k : Nat) (hk : k < 10) :
    (digitChar k).isDigit = true ∧ digitVal (digitChar k) = k := by
  interval_cases k <;> exact ⟨rfl, rfl⟩

/-- Two-digit parsing inverts two-digit zero-padded rendering. -/
theorem parse2_format2 (n : Nat) (hn : n < 100) (rest : List Char) :
    parse2 (format2 n ++ rest) = some (n, rest) := by
  obtain ⟨d1, v1⟩ := digitChar_spec (n / 10) (by omega)
  obtain ⟨d2, v2⟩ := digitChar_spec (n % 10) (by omega)
  simp only [format2, List.cons_append, List.nil_append, parse2, d1, d2,
    Bool.and_self, if_true, v1, v2]
  congr 1
  congr 1
  omega

/-- Four-digit parsing inverts four-digit zero-padded rendering. -/
theorem parse4_format4 (n : Nat) (hn : n < 10000) (rest : List Char) :
    parse4 (format4 n ++ rest) = some (n, rest) := by
  obtain ⟨d1, v1⟩ := digitChar_spec (n / 1000) (by omega)
  obtain ⟨d2, v2⟩ := digitChar_spec (n / 100 % 10) (by omega)
  obtain ⟨d3, v3⟩ := digitChar_spec (n / 10 % 10) (by omega)
  obtain ⟨d4, v4⟩ := digitChar_spec (n % 10) (by omega)
  simp only [format4, List.cons_append, List.nil_append, parse4, d1, d2, d3, d4,
    Bool.and_self, if_true, v1, v2, v3, v4]
  congr 1
  congr 1
  omega

/-- Month abbreviations are three characters long. -/
theorem monthCode_shape (m : Nat) : ∃ c1 c2 c3, monthCode m = [c1, c2, c3] := by
  unfold monthCode; split <;> exact ⟨_, _, _, rfl⟩

/-- The date-prefix parser inverts the date rendering of `strftime`. -/
theorem parseDMY_build (y m d : Nat) (hm1 : 1 ≤ m) (hm2 : m ≤ 12)
    (hd100 : d < 100) (hy10k : y < 10000) (tail : List Char) :
    parseDMY (format2 d ++ monthCode m ++ format4 y ++ tail) = some (d, m, y, tail) := by
  obtain ⟨c1, c2, c3, hmc⟩ := monthCode_shape m
  have hmv : monthFromCode [c1, c2, c3] = some m := by
    rw [← hmc]; exact monthFromCode_monthCode m hm1 hm2
  have hp2 := parse2_format2 d hd100 (monthCode m ++ (format4 y ++ tail))
  unfold parseDMY
  rw [show format2 d ++ monthCode m ++ format4 y ++ tail =
        format2 d ++ (monthCode m ++ (format4 y ++ tail)) from by simp]
  rw [hp2, Option.some_bind]
  dsimp only
  rw [hmc]
  dsimp only [List.cons_append, List.nil_append]
  rw [hmv, Option.some_bind]
  rw [parse4_format4 y hy10k]
  rfl

/-- Reparsing an `%d%b%Y:0000`-rendered valid datetime recovers it with
a midnight time part. -/
theorem strptime_strftime0000 (dt : PyDateTime) (hv : validDate dt) :
    strptimeDMYHM (strftime0000 dt) = some ⟨dt.year, dt.month, dt.day, 0, 0⟩ := by
  obtain ⟨hy1, hy2, hm1, hm2, hd1, hd2, hh, hmi⟩ := hv
  have hd100 : dt.day < 100 := by have := daysInMonth_le31 dt.year dt.month; omega
  have hy10k : dt.year < 10000 := by omega
  unfold strptimeDMYHM strftime0000
  rw [parseDMY_build dt.year dt.month dt.day hm1 hm2 hd100 hy10k]
  dsimp only
  rw [if_pos (show (':' : Char) = ':' ∧ ([] : List Char) = [] ∧
        (('0' : Char).isDigit && ('0' : Char).isDigit && ('0' : Char).isDigit &&
         ('0' : Char).isDigit) = true from by decide)]
  rw [if_pos (show 1 ≤ dt.year ∧ dt.year ≤ 9999 ∧ 1 ≤ dt.day ∧
        dt.day ≤ daysInMonth dt.year dt.month ∧
        digitVal '0' * 10 + digitVal '0' ≤ 23 ∧
        digitVal '0' * 10 + digitVal '0' ≤ 59 from
      ⟨hy1, hy2, hd1, hd2, by decide, by decide⟩)]
  rfl

/-- Adding one day to a valid datetime (other than the last representable
day) stays valid and preserves the time of day. -/
theorem addOneDay_valid (dt : PyDateTime) (hv : validDate dt)
    (hbig : ¬(dt.year = 9999 ∧ dt.month = 12 ∧ dt.day = 31)) :
    validDate (addOneDay dt) ∧ (addOneDay dt).hour = dt.hour ∧
    (addOneDay dt).minute = dt.minute := by
  obtain ⟨y, m, d, hr, mi⟩ := dt
  obtain ⟨hy1, hy2, hm1, hm2, hd1, hd2, hh, hmi⟩ := hv
  simp only at hy1 hy2 hm1 hm2 hd1 hd2 hh hmi hbig
  unfold addOneDay validDate
  dsimp only
  split_ifs with h1 h2
  · refine ⟨?_, rfl, rfl⟩
    dsimp only
    exact ⟨hy1, hy2, hm1, hm2, by omega, by omega, hh, hmi⟩
  · refine ⟨?_, rfl, rfl⟩
    dsimp only
    exact ⟨hy1, hy2, by omega, by omega, by omega, daysInMonth_pos y (m + 1), hh, hmi⟩
  · have hm12 : m = 12 := by omega
    subst hm12
    have hdim : daysInMonth y 12 = 31 := by simp [daysInMonth]
    have hdim1 : daysInMonth (y + 1) 1 = 31 := by simp [daysInMonth]
    have hy : y ≠ 9999 := by
      intro hy9
      exact hbig ⟨hy9, rfl, by omega⟩
    refine ⟨?_, rfl, rfl⟩
    dsimp only
    exact ⟨by omega, by omega, by omega, by omega, by omega, by omega, hh, hmi⟩

/-- Peeling one month off the year-prefix day count. -/
theorem daysBeforeMonth_succ (y m : Nat) (h : 1 ≤ m) :
    daysBeforeMonth y (m + 1) = daysBeforeMonth y m + daysInMonth y m := by
  unfold daysBeforeMonth
  have hm : m + 1 - 1 = (m - 1) + 1 := by omega
  rw [hm, List.range_succ, List.foldl_append]
  have hm2 : m - 1 + 1 = m := by omega
  simp [hm2]

/-- Peeling one year off the leap-year count. -/
theorem leapsThrough_succ (y : Nat) (hy : 1 ≤ y) :
    leapsThrough y = leapsThrough (y - 1) + (if isLeap y then 1 else 0) := by
  unfold leapsThrough isLeap
  by_cases h4 : y % 4 = 0 <;> by_cases h100 : y % 100 = 0 <;> by_cases h400 : y % 400 = 0 <;>
    simp [h4, h100, h400] <;> omega

/-- Adding one calendar day advances the absolute minute number by
exactly 1440 minutes. -/
theorem toMinutes_addOneDay (dt : PyDateTime) (hv : validDate dt) :
    toMinutes (addOneDay dt) = toMinutes dt + 1440 := by
  obtain ⟨y, m, d, hr, mi⟩ := dt
  obtain ⟨hy1, hy2, hm1, hm2, hd1, hd2, hh, hmi⟩ := hv
  simp only at hy1 hy2 hm1 hm2 hd1 hd2 hh hmi
  unfold addOneDay
  dsimp only
  split_ifs with h1 h2
  · unfold toMinutes
    dsimp only
    push_cast
    omega
  · have hde : d = daysInMonth y m := by omega
    have hb := daysBeforeMonth_succ y m hm1
    unfold toMinutes
    dsimp only
    push_cast
    omega
  · have hm12 : m = 12 := by omega
    subst hm12
    have hdim : daysInMonth y 12 = 31 := by simp [daysInMonth]
    have hd31 : d = 31 := by omega
    have hl := leapsThrough_succ y hy1
    have hby : daysBeforeYear (y + 1) = 365 * y + leapsThrough y := by
      unfold daysBeforeYear
      simp
    have hby2 : daysBeforeYear y = 365 * (y - 1) + leapsThrough (y - 1) := rfl
    have hbm1 : daysBeforeMonth (y + 1) 1 = 0 := rfl
    have hbm12 : daysBeforeMonth y 12 = 334 + (if isLeap y then 1 else 0) := by
      by_cases hleap : isLeap y <;>
        simp [daysBeforeMonth, List.range_succ, daysInMonth, hleap]
    unfold toMinutes
    dsimp only
    rw [hbm1, hby, hby2, hbm12] at *
    by_cases hleap : isLeap y <;> simp [hleap] at * <;> omega

/-- A parsed month number lies in `1`..`12`. -/
theorem monthFromCode_range (cs : List Char) (m : Nat)
    (h : monthFromCode cs = some m) : 1 ≤ m ∧ m ≤ 12 := by
  unfold monthFromCode monthTable at h
  simp only [List.lookup] at h
  repeat' split at h
  all_goals first
    | (simp_all; omega)
    | simp_all

/-- The month field produced by the date-prefix parser lies in `1`..`12`. -/
theorem parseDMY_month_range (s : List Char) (d m y : Nat) (r : List Char)
    (h : parseDMY s = some (d, m, y, r)) : 1 ≤ m ∧ m ≤ 12 := by
  unfold parseDMY at h
  obtain ⟨p, hp, h2⟩ := Option.bind_eq_some.mp h
  split at h2
  · obtain ⟨m0, hm0, h3⟩ := Option.bind_eq_some.mp h2
    obtain ⟨q, hq, heq⟩ := Option.map_eq_some'.mp h3
    simp only [Prod.mk.injEq] at heq
    obtain ⟨-, hm, -, -⟩ := heq
    subst hm
    exact monthFromCode_range _ _ hm0
  · exact absurd h2 (by simp)

/-- A datetime produced by the `%d%b%Y:2400` parse is valid and has a
midnight time part. -/
theorem strptime2400_props (s : List Char) (dt : PyDateTime)
    (h : strptime2400 s = some dt) :
    validDate dt ∧ dt.hour = 0 ∧ dt.minute = 0 := by
  unfold strptime2400 at h
  split at h
  · exact absurd h (by simp)
  · rename_i d m y r3 hdmy
    split_ifs at h with hr hb
    · simp only [Option.some.injEq] at h
      obtain ⟨hm1, hm2⟩ := parseDMY_month_range s d m y r3 hdmy
      subst h
      exact ⟨⟨hb.1, hb.2.1, hm1, hm2, hb.2.2.1, hb.2.2.2, Nat.zero_le _, Nat.zero_le _⟩, rfl, rfl⟩

/-- Claim C10: for every DSS pathname whose sixth slash-separated field
ends in `2400`, `get_precip_record_datetimes` returns an end datetime
equal to 00:00 on the day after that field's date (one calendar day —
1440 minutes — later, hour and minute zero); every other pathname has
both its fifth and sixth fields parsed directly with `%d%b%Y:%H%M`, so
the stored-range scan never produces an unparseable 24:00 end
timestamp. -/
theorem C10_precip (pathname d_part e_part : List Char)
    (h4 : (splitChar '/' pathname)[4]? = some d_part)
    (h5 : (splitChar '/' pathname)[5]? = some e_part) :
    (∀ sdt tdt, ['2', '4', '0', '0'].isSuffixOf e_part = true →
      strptime2400 e_part = some tdt →
      ¬(tdt.year = 9999 ∧ tdt.month = 12 ∧ tdt.day = 31) →
      strptimeDMYHM d_part = some sdt →
      get_precip_record_datetimes pathname = .ok (sdt, addOneDay tdt) ∧
      (addOneDay tdt).hour = 0 ∧ (addOneDay tdt).minute = 0 ∧
      toMinutes (addOneDay tdt) = toMinutes tdt + 1440) ∧
    (∀ sdt edt, ['2', '4', '0', '0'].isSuffixOf e_part = false →
      strptimeDMYHM d_part = some sdt → strptimeDMYHM e_part = some edt →
      get_precip_record_datetimes pathname = .ok (sdt, edt)) := by
  constructor
  · intro sdt tdt hsuf h24 hbig hsd
    obtain ⟨hvd, hh0, hm0⟩ := strptime2400_props e_part tdt h24
    obtain ⟨hav, havh, havm⟩ := addOneDay_valid tdt hvd hbig
    have h0 : (addOneDay tdt).hour = 0 := by rw [havh]; exact hh0
    have h0m : (addOneDay tdt).minute = 0 := by rw [havm]; exact hm0
    have hrt := strptime_strftime0000 (addOneDay tdt) hav
    have heq : (⟨(addOneDay tdt).year, (addOneDay tdt).month, (addOneDay tdt).day,
        0, 0⟩ : PyDateTime) = addOneDay tdt := by
      apply PyDateTime.ext <;> simp [h0, h0m]
    rw [heq] at hrt
    refine ⟨?_, h0, h0m, toMinutes_addOneDay tdt hvd⟩
    unfold get_precip_record_datetimes
    dsimp only
    rw [h4, h5]
    dsimp only
    rw [if_pos hsuf, h24]
    dsimp only
    rw [hsd, hrt]
  · intro sdt edt hsuf hsd hse
    unfold get_precip_record_datetimes
    dsimp only
    rw [h4, h5]
    dsimp only
    rw [hsuf]
    simp only [Bool.false_eq_true, if_false]
    rw [hsd, hse]

/-- Witness for C10: the E part `01JAN2024:2400` is rolled over to
midnight of 2024-01-02. -/
theorem C10_witness :
    get_precip_record_datetimes "/SHG/WS/PRECIP/31DEC2023:1400/01JAN2024:2400/A2W/".data =
      .ok (⟨2023, 12, 31, 14, 0⟩, ⟨2024, 1, 2, 0, 0⟩) := by
  have h := (C10_precip "/SHG/WS/PRECIP/31DEC2023:1400/01JAN2024:2400/A2W/".data
      "31DEC2023:1400".data "01JAN2024:2400".data (by decide) (by decide)).1
      ⟨2023, 12, 31, 14, 0⟩ ⟨2024, 1, 1, 0, 0⟩ (by decide) (by decide) (by decide) (by decide)
  exact h.1

end RtsUtils
